import Mathlib

/-!
Verification of the poly-maker market-selection pipeline.

This file shallowly embeds the two source files of the repository:

* `select_markets.py` — scoring, filtering, sorting and top-N selection of
  candidate markets, derivation of synchronization fields, and the two-phase
  (delete rows, then append rows) replacement of the destination worksheet.
* `poly_data/utils.py` (`get_sheet_df`) — the schema merge of two worksheets
  on the `question` key, and the stateful parse of the `Hyperparameters`
  worksheet into a nested section/param/value map.

Modelling conventions:

* A spreadsheet cell is a `Cell`: a string, an integer, a finite float
  (modelled as an exact rational — binary rounding of float literals is not
  modelled, the claims only involve exactly representable values), or the
  float NaN.  `pd.to_numeric(..., errors="coerce")` turns unparseable cells
  into NaN, so numeric columns hold `Cell.f`/`Cell.i`/`Cell.nan` values and
  `colQ` reads them as `Option ℚ` with `none` playing the role of NaN.
* Pandas comparisons against NaN are `False`; this is the `none => false`
  branch of the comparison helpers below.
* Division producing a non-finite float (denominator zero in the score
  formula) is modelled as NaN; the claims about scores assume a finite
  result.
* `DataFrame.sort_values("score", ascending=False)` is called without a
  `kind` argument, so pandas uses its default `quicksort` (numpy introsort),
  which is documented as not stable: the relative order of equal scores is
  implementation-defined.  The embedding has to pick some executable order
  and uses a descending insertion sort with NaN keys placed last (the NaN
  placement follows pandas `nargsort`; ties fall where a stable pass puts
  them).  No theorem below depends on the relative order of equal-score
  rows, so nothing proved here relies on tie behavior the code leaves
  unspecified.
* Worksheet I/O is modelled by explicit state passing: a worksheet is a
  `List (List String)` of rows, and the fallible delete/append calls take
  failure oracles (`deleteFails : Bool`, `appendFailsAt : Option Nat`)
  describing which remote call raises.
-/

namespace PolyMaker

/-- A spreadsheet cell value as produced by the sheet client and pandas:
a string, an integer, a finite float (modelled as an exact rational), or
the float NaN (what `pd.to_numeric(..., errors="coerce")` yields for
unparseable input). -/
inductive Cell where
  | s (v : String)
  | i (v : Int)
  | f (v : ℚ)
  | nan
deriving DecidableEq, Repr

/-- A record (worksheet row keyed by header), as returned by
`get_all_records`: an ordered association list from field name to cell. -/
def Row : Type := List (String × Cell)

instance : DecidableEq Row := by
  unfold Row
  infer_instance

instance : Membership (String × Cell) Row := by
  unfold Row
  infer_instance

/-- First-binding lookup in a record. -/
def alookup : List (String × Cell) → String → Option Cell
  | [], _ => none
  | (k, v) :: r, c => if k = c then some v else alookup r c

/-- Field access on a record; a missing field reads as the empty string,
matching `get_all_records` padding short rows with `''`. -/
def rget (r : Row) (c : String) : Cell :=
  (alookup r c).getD (Cell.s "")

/-- Column assignment `df[c] = v` restricted to one row: replace the first
binding of `c` if present, otherwise append the new column at the end. -/
def rset : Row → String → Cell → Row
  | [], c, v => [(c, v)]
  | (k, w) :: r, c, v => if k = c then (c, v) :: r else (k, w) :: rset r c v

/-- The numeric reading of one cell: `none` models NaN (an explicit NaN,
or a string, which `pd.to_numeric(errors := coerce)` would have turned
into NaN). -/
def cellQ : Cell → Option ℚ
  | Cell.f q => some q
  | Cell.i n => some (n : ℚ)
  | _ => none

/-- Read a cell of a numeric (`pd.to_numeric`-coerced) column as an optional
rational; a missing field also reads as NaN. -/
def colQ (r : Row) (c : String) : Option ℚ :=
  match alookup r c with
  | some v => cellQ v
  | none => none

/-- Python truthiness of a cell (`if type_value:`): the empty string and
zero are falsy; NaN is truthy. -/
def pyTruthy : Cell → Bool
  | Cell.s v => v ≠ ""
  | Cell.i n => n ≠ 0
  | Cell.f q => q ≠ 0
  | Cell.nan => true

/-- Decimal rendering of a non-integral float.  Python would print a decimal
expansion; no claim depends on this case, we only need some injective-enough
string.  Integral floats print as Python does (`2.0` for `2`). -/
def floatRepr (q : ℚ) : String :=
  if q.den = 1 then toString q.num ++ ".0"
  else toString q.num ++ "/" ++ toString q.den

/-- Python `str()` of a cell; `str(float("nan")) = "nan"`. -/
def pyStr : Cell → String
  | Cell.s v => v
  | Cell.i n => toString n
  | Cell.f q => floatRepr q
  | Cell.nan => "nan"

/-- ASCII whitespace test used by the `strip` model. -/
def isSpace (c : Char) : Bool :=
  c = ' ' ∨ c = '\t' ∨ c = '\n' ∨ c = '\r'

/-- Python `str.strip()` on the character list: drop leading and trailing
whitespace. -/
def stripChars (l : List Char) : List Char :=
  ((l.dropWhile isSpace).reverse.dropWhile isSpace).reverse

/-- Python `str.strip()`. -/
def pyStrip (str : String) : String :=
  String.mk (stripChars str.data)

/-- Natural number denoted by a list of ASCII digits (most significant
first); used by the `float()` model. -/
def natOfDigits (l : List Char) : Nat :=
  l.foldl (fun n c => 10 * n + (c.toNat - 48)) 0

/-- Split a character list at its first dot: returns the part before the
dot and, when a dot occurs, the part after it. -/
def splitDot : List Char → List Char × Option (List Char)
  | [] => ([], none)
  | c :: rest =>
    if c = '.' then ([], some rest)
    else
      let p := splitDot rest
      (c :: p.1, p.2)

/-- The magnitude part of the `float()` model: digits with at most one dot
and at least one digit. -/
def pyFloatMag (body : List Char) : Option ℚ :=
  let p := splitDot body
  let ip := p.1
  match p.2 with
  | none =>
    if ip ≠ [] ∧ ip.all Char.isDigit then
      some ((natOfDigits ip : ℚ))
    else none
  | some fp =>
    if (ip ++ fp) ≠ [] ∧ ip.all Char.isDigit ∧ fp.all Char.isDigit then
      some ((natOfDigits ip : ℚ) + (natOfDigits fp : ℚ) / (10 : ℚ) ^ fp.length)
    else none

/-- Python `float()` on the domain the source exercises (strings made of
digits, dots and minus signs): an optional leading minus, then digits with
at most one dot and at least one digit; anything else raises `ValueError`,
modelled as `none`. -/
def pyFloat (str : String) : Option ℚ :=
  if str.data.take 1 = ['-'] then (pyFloatMag (str.data.drop 1)).map Neg.neg
  else pyFloatMag str.data

/-- The test `value.replace('.', '').replace('-', '').isdigit()` from
`get_sheet_df`: after deleting every dot and minus sign the remainder is
non-empty and all digits (`"".isdigit()` is `False` in Python). -/
def digitTest (str : String) : Bool :=
  let rest := str.data.filter (fun c => ¬ (c = '.' ∨ c = '-'))
  rest ≠ [] ∧ rest.all Char.isDigit

/-! ### Configuration (`MarketConfig` in `select_markets.py`) -/

namespace MarketConfig

def TOP_N : Nat := 5

def MIN_REWARD : ℚ := 1

def MAX_VOLATILITY : ℚ := 15

/-- The source constant `0.15`, written as an explicitly reduced rational
(`3/20`) so that it evaluates by kernel reduction; `MAX_SPREAD_eq` below
checks it equals `0.15`. -/
def MAX_SPREAD : ℚ := ⟨3, 20, by decide, by norm_num⟩

def MAX_MIN_SIZE : ℚ := 300

def DEFAULT_PARAM_TYPE : String := "mid"

def DEFAULT_MULTIPLIER : String := "1"

end MarketConfig

/-! ### Scoring and filtering (`calculate_scores`, `filter_markets`) -/

/-- The score cell computed for one row by `calculate_scores`:
`df["gm_reward_per_100"] / (df["volatility_sum"] + 1) * 100`.  A NaN operand
propagates to NaN; a zero denominator yields a non-finite float, also
modelled as NaN (no claim depends on that case). -/
def scoreCell (r : Row) : Cell :=
  match colQ r "gm_reward_per_100", colQ r "volatility_sum" with
  | some g, some v => if v + 1 = 0 then Cell.nan else Cell.f (g / (v + 1) * 100)
  | _, _ => Cell.nan

/-- `calculate_scores`: assign the `score` column row-wise. -/
def calculate_scores (df : List Row) : List Row :=
  df.map (fun r => rset r "score" (scoreCell r))

/-- Pandas `series >= c` on one cell: `False` when the cell is NaN. -/
def qGE (o : Option ℚ) (c : ℚ) : Bool :=
  match o with
  | some x => c ≤ x
  | none => false

/-- Pandas `series < c` on one cell: `False` when the cell is NaN. -/
def qLT (o : Option ℚ) (c : ℚ) : Bool :=
  match o with
  | some x => x < c
  | none => false

/-- Pandas `series <= c` on one cell: `False` when the cell is NaN. -/
def qLE (o : Option ℚ) (c : ℚ) : Bool :=
  match o with
  | some x => x ≤ c
  | none => false

/-- The boolean mask of `filter_markets`: the conjunction of the four
threshold predicates of `MarketConfig`. -/
def passesFilter (r : Row) : Bool :=
  qGE (colQ r "gm_reward_per_100") MarketConfig.MIN_REWARD &&
  qLT (colQ r "volatility_sum") MarketConfig.MAX_VOLATILITY &&
  qLT (colQ r "spread") MarketConfig.MAX_SPREAD &&
  qLE (colQ r "min_size") MarketConfig.MAX_MIN_SIZE

/-- The score key a row is sorted by. -/
def scoreOf (r : Row) : Option ℚ :=
  colQ r "score"

/-- Descending order on optional score keys, with NaN (`none`) at the
bottom, as `sort_values("score", ascending=False)` produces (NaN rows are
emitted last). -/
def oGE : Option ℚ → Option ℚ → Prop
  | _, none => True
  | none, some _ => False
  | some x, some y => y ≤ x

instance oGE.instDecidable : ∀ x y : Option ℚ, Decidable (oGE x y)
  | some _, none => Decidable.isTrue trivial
  | none, none => Decidable.isTrue trivial
  | none, some _ => Decidable.isFalse (fun h => h)
  | some x, some y => inferInstanceAs (Decidable (y ≤ x))

/-- The row order realized by `sort_values("score", ascending=False)`. -/
def SRel (a b : Row) : Prop :=
  oGE (scoreOf a) (scoreOf b)

instance : DecidableRel SRel :=
  fun a b => oGE.instDecidable (scoreOf a) (scoreOf b)

instance : IsTotal Row SRel where
  total a b := by
    unfold SRel oGE
    rcases scoreOf a with _ | x <;> rcases scoreOf b with _ | y
    · exact Or.inl trivial
    · exact Or.inr trivial
    · exact Or.inl trivial
    · exact (le_total y x).imp id id

instance : IsTrans Row SRel where
  trans a b c := by
    unfold SRel oGE
    rcases scoreOf a with _ | x <;> rcases scoreOf b with _ | y <;>
      rcases scoreOf c with _ | z <;> intro h1 h2 <;> try trivial
    exact le_trans h2 h1

/-- `filter_markets`: keep the rows passing the threshold mask, then sort
by score descending.  The source calls `sort_values` with the default
`kind` (`quicksort`), whose tie order is documented as unstable, hence
implementation-defined; the embedding realizes the descending order with
an insertion sort and places NaN keys last as pandas `nargsort` does.  The
theorems below use only properties independent of the order chosen among
equal scores (emptiness and the image of singleton inputs). -/
def filter_markets (df : List Row) : List Row :=
  List.insertionSort SRel (df.filter passesFilter)

/-! ### Selection materializer (`prepare_selected_markets`) -/

/-- Numpy `float -> int` cast (`astype(int)`): truncation toward zero. -/
def truncRat (q : ℚ) : Int :=
  (if q.num < 0 then -1 else 1) * ((q.num.natAbs / q.den : Nat) : Int)

/-- One row of `prepare_selected_markets`: `max_size` and `trade_size` are
`str(int(min_size))`, `param_type` and `multiplier` the configured
constants.  `astype(int)` on a non-numeric cell raises in pandas; rows
reaching this function have passed the filter, hence carry a numeric
`min_size`, so the fallback value of the read is never exercised by the
pipeline. -/
def prepareRow (r : Row) : Row :=
  let m := (colQ r "min_size").getD 0
  rset
    (rset
      (rset
        (rset r "max_size" (Cell.s (toString (truncRat m))))
        "trade_size" (Cell.s (toString (truncRat m))))
      "param_type" (Cell.s MarketConfig.DEFAULT_PARAM_TYPE))
    "multiplier" (Cell.s MarketConfig.DEFAULT_MULTIPLIER)

/-- `prepare_selected_markets`: the row-wise field derivation. -/
def prepare_selected_markets (df : List Row) : List Row :=
  df.map prepareRow

/-! ### Sync writer (`clear_selected_markets`, `update_selected_markets`) -/

/-- The row appended for one record by `update_selected_markets`:
`[str(row.get(h, "")) for h in headers]` — the record's cells read in
header-column order, a field absent from the record rendered as the empty
string (`str("")`). -/
def renderRow (hdr : List String) (r : Row) : List String :=
  hdr.map (fun h =>
    match alookup r h with
    | some v => pyStr v
    | none => "")

/-- `clear_selected_markets`, with a failure oracle for the remote delete
call.  Reads the sheet; when more than the header row is present it calls
`delete_rows(2, len(all_values))`, which removes every row after the first.
An exception from the delete call is caught inside the function: the sheet
is left as it was and `0` is returned.  The returned count is
`len(all_values) - 1` on a successful delete (Python also returns `-1` on
an empty sheet, hence the `Int` return type). -/
def clear_selected_markets (deleteFails : Bool) (sheet : List (List String)) :
    List (List String) × Int :=
  if 1 < sheet.length then
    if deleteFails then (sheet, 0)
    else (sheet.take 1, (sheet.length : Int) - 1)
  else (sheet, if sheet.length = 0 then (0 : Int) - 1 else 0)

/-- `update_selected_markets`, with a failure oracle naming which append
call (0-based) raises, `none` meaning all succeed.  Headers are
`row_values(1)` (the empty list on an empty sheet).  Rows are appended one
at a time; when the k-th append raises, the first k appended rows remain
and the function returns `False`. -/
def update_selected_markets (appendFailsAt : Option Nat)
    (sheet : List (List String)) (markets : List Row) :
    List (List String) × Bool :=
  let hdr := (sheet.head?).getD []
  match appendFailsAt with
  | none => (sheet ++ markets.map (renderRow hdr), true)
  | some k =>
    if k < markets.length then
      (sheet ++ (markets.take k).map (renderRow hdr), false)
    else
      (sheet ++ markets.map (renderRow hdr), true)

/-- Steps 8 of `main`: clear the destination (its result value is ignored
by `main`), append the new rows, and exit 1 when the append phase reported
failure, 0 otherwise. -/
def mainSync (deleteFails : Bool) (appendFailsAt : Option Nat)
    (sheet : List (List String)) (markets : List Row) :
    List (List String) × Nat :=
  let s1 := (clear_selected_markets deleteFails sheet).1
  let p := update_selected_markets appendFailsAt s1 markets
  (p.1, if p.2 then 0 else 1)

/-- `main` from the loaded candidate pool on: score, filter, exit 1 with
the destination untouched when nothing qualifies, otherwise take the top
`TOP_N`, materialize the sync fields, and run the two-phase replace.
Returns the final destination sheet and the process exit status. -/
def mainRun (vol : List Row) (deleteFails : Bool) (appendFailsAt : Option Nat)
    (sheet : List (List String)) : List (List String) × Nat :=
  let filtered := filter_markets (calculate_scores vol)
  if filtered.isEmpty then (sheet, 1)
  else
    mainSync deleteFails appendFailsAt sheet
      (prepare_selected_markets (filtered.take MarketConfig.TOP_N))

/-! ### Schema merge (`get_sheet_df` in `poly_data/utils.py`, lines 36-51) -/

/-- A worksheet as a dataframe: the header columns in order, and the data
rows (each row carries a binding for every header of its sheet, as
`get_all_records` pads missing cells with the empty string). -/
structure DF where
  cols : List String
  rows : List Row

/-- `df[df["question"] != ""].reset_index(drop=True)`: drop the rows whose
`question` cell is the empty string. -/
def dropBlank (df : DF) : DF :=
  { cols := df.cols, rows := df.rows.filter (fun r => rget r "question" ≠ Cell.s "") }

/-- The merged row built from a primary row `p` and a matching secondary
row `s`: every primary column verbatim from `p`, then the secondary-only
columns from `s`. -/
def mergeRow (pcols extra : List String) (p srow : Row) : Row :=
  pcols.map (fun c => (c, rget p c)) ++ extra.map (fun c => (c, rget srow c))

/-- The merge step of `get_sheet_df`: after blank-row removal, compute
`cols_to_add = [c for c in df2.columns if c not in df.columns]`, project
the secondary sheet to `["question"] + cols_to_add`, and inner-join on
`question`.  Pandas emits, for each primary row in order, one output row
per matching secondary row in order. -/
def get_sheet_df_merge (P S : DF) : DF :=
  let Pf := dropBlank P
  let Sf := dropBlank S
  let extra := S.cols.filter (fun c => c ∉ P.cols)
  { cols := P.cols ++ extra,
    rows := (Pf.rows.map (fun p =>
      (Sf.rows.filter (fun srow => rget srow "question" = rget p "question")).map
        (fun srow => mergeRow P.cols extra p srow))).flatten }

/-! ### Hyperparameter parse (`get_sheet_df`, lines 53-77) -/

/-- A row of the `Hyperparameters` worksheet: its `type`, `param` and
`value` cells. -/
structure PRow where
  type : Cell
  param : Cell
  value : Cell
deriving DecidableEq, Repr

/-- The nested result map, as an ordered association structure: sections in
first-seen order, each holding its parameters in first-seen order. -/
def HP : Type := List (String × List (Cell × Cell))

instance : DecidableEq HP := by
  unfold HP
  infer_instance

/-- Update-or-append on a parameter list (dict assignment: last write to a
key wins, first-insertion order kept). -/
def paramsInsert : List (Cell × Cell) → Cell → Cell → List (Cell × Cell)
  | [], k, v => [(k, v)]
  | (k', v') :: l, k, v =>
    if k' = k then (k, v) :: l else (k', v') :: paramsInsert l k v

/-- `hyperparams.setdefault(current_type, {})[param] = value`. -/
def hpInsert : HP → String → Cell → Cell → HP
  | [], sec, k, v => [(sec, [(k, v)])]
  | (sec', ps) :: l, sec, k, v =>
    if sec' = sec then (sec, paramsInsert ps k v) :: l
    else (sec', ps) :: hpInsert l sec k v

/-- The value coercion of the parser: a string passing `digitTest` is
converted with `float()` when that conversion succeeds (the raised
`ValueError` of an ill-formed numeral is caught, keeping the original
string); an `int` or `float` value becomes a float (`float(nan)` is `nan`);
everything else is stored unchanged. -/
def coerceValue : Cell → Cell
  | Cell.s str =>
    if digitTest str then
      match pyFloat str with
      | some q => Cell.f q
      | none => Cell.s str
    else Cell.s str
  | Cell.i n => Cell.f (n : ℚ)
  | Cell.f q => Cell.f q
  | Cell.nan => Cell.nan

/-- The section-header test of the parser: the `type` cell is truthy, its
string form is non-blank after stripping, and is not the literal "nan". -/
def typeStarts (t : Cell) : Bool :=
  pyTruthy t && pyStrip (pyStr t) ≠ "" && pyStr t ≠ "nan"

/-- One iteration of the parse loop: possibly update the current section
from the row's `type` cell, then — when a section is set — insert the
coerced value; a row seen before any section is dropped. -/
def stepHP (acc : HP × Option String) (r : PRow) : HP × Option String :=
  let cur := if typeStarts r.type then some (pyStrip (pyStr r.type)) else acc.2
  match cur with
  | none => (acc.1, none)
  | some sec => (hpInsert acc.1 sec r.param (coerceValue r.value), some sec)

/-- The hyperparameter parse of `get_sheet_df`: a single stateful fold over
the rows with the carried current section, starting from the empty map and
no section. -/
def get_sheet_df_hyperparams (records : List PRow) : HP :=
  (records.foldl stepHP ([], none)).1

/-! ### Helper lemmas -/

theorem lookup_rset_self (r : Row) (c : String) (v : Cell) :
    alookup (rset r c v) c = some v := by
  induction r with
  | nil => simp [rset, alookup]
  | cons kv r ih =>
    obtain ⟨k, w⟩ := kv
    by_cases h : k = c
    · subst h
      simp [rset, alookup]
    · simp only [rset, if_neg h, alookup]
      exact ih

theorem lookup_rset_ne (r : Row) {c c' : String} (v : Cell) (h : c' ≠ c) :
    alookup (rset r c v) c' = alookup r c' := by
  induction r with
  | nil => simp [rset, alookup, Ne.symm h]
  | cons kv r ih =>
    obtain ⟨k, w⟩ := kv
    by_cases hk : k = c
    · subst hk
      simp only [rset, if_pos rfl, alookup]
      rw [if_neg (Ne.symm h), if_neg (Ne.symm h)]
    · simp only [rset, if_neg hk, alookup]
      by_cases hck : k = c'
      · rw [if_pos hck, if_pos hck]
      · rw [if_neg hck, if_neg hck]
        exact ih

theorem colQ_rset_self (r : Row) (c : String) (v : Cell) :
    colQ (rset r c v) c = cellQ v := by
  unfold colQ
  rw [lookup_rset_self]

theorem colQ_rset_ne (r : Row) {c c' : String} (v : Cell) (h : c' ≠ c) :
    colQ (rset r c v) c' = colQ r c' := by
  unfold colQ
  rw [lookup_rset_ne r v h]

theorem rget_rset_self (r : Row) (c : String) (v : Cell) :
    rget (rset r c v) c = v := by
  unfold rget
  rw [lookup_rset_self]
  rfl

theorem rget_rset_ne (r : Row) {c c' : String} (v : Cell) (h : c' ≠ c) :
    rget (rset r c v) c' = rget r c' := by
  unfold rget
  rw [lookup_rset_ne r v h]

/-- Assigning the `score` column does not change the filter mask (none of
the four predicate columns is `score`). -/
theorem passesFilter_rset_score (r : Row) (v : Cell) :
    passesFilter (rset r "score" v) = passesFilter r := by
  unfold passesFilter
  rw [colQ_rset_ne r v (by decide), colQ_rset_ne r v (by decide),
    colQ_rset_ne r v (by decide), colQ_rset_ne r v (by decide)]

theorem qGE_iff (o : Option ℚ) (c : ℚ) :
    qGE o c = true ↔ ∃ x, o = some x ∧ c ≤ x := by
  cases o with
  | none => simp [qGE]
  | some x => simp [qGE]

theorem qLT_iff (o : Option ℚ) (c : ℚ) :
    qLT o c = true ↔ ∃ x, o = some x ∧ x < c := by
  cases o with
  | none => simp [qLT]
  | some x => simp [qLT]

theorem qLE_iff (o : Option ℚ) (c : ℚ) :
    qLE o c = true ↔ ∃ x, o = some x ∧ x ≤ c := by
  cases o with
  | none => simp [qLE]
  | some x => simp [qLE]

/-- The reduced-rational spelling of `MAX_SPREAD` is the source's `0.15`. -/
theorem MAX_SPREAD_eq : MarketConfig.MAX_SPREAD = 0.15 := by
  unfold MarketConfig.MAX_SPREAD
  rw [Rat.mk'_eq_divInt, Rat.divInt_eq_div]
  norm_num

/-! ### Claim theorems -/

/-- C1.  A record is selected by `filter_markets`'s mask exactly when all
four threshold predicates hold on present numeric values: reward at least
`MIN_REWARD`, volatility strictly below `MAX_VOLATILITY`, spread strictly
below `MAX_SPREAD`, and `min_size` at most `MAX_MIN_SIZE` (inclusive: the
second conjunct checks a record with `min_size` exactly `300` passes).  A
record with a missing (NaN) value in any of the four fields cannot satisfy
the corresponding existential, so it is excluded — the third conjunct
exhibits a record failing only by a missing `volatility_sum`; exclusion is
by the mask evaluating to `false`, never by an error (the mask is a total
function). -/
theorem C1_filter_conjunction :
    (∀ r : Row, passesFilter r = true ↔
      ((∃ g, colQ r "gm_reward_per_100" = some g ∧ MarketConfig.MIN_REWARD ≤ g) ∧
       (∃ v, colQ r "volatility_sum" = some v ∧ v < MarketConfig.MAX_VOLATILITY) ∧
       (∃ sp, colQ r "spread" = some sp ∧ sp < MarketConfig.MAX_SPREAD) ∧
       (∃ m, colQ r "min_size" = some m ∧ m ≤ MarketConfig.MAX_MIN_SIZE))) ∧
    passesFilter [("gm_reward_per_100", Cell.f 2), ("volatility_sum", Cell.f 3),
      ("spread", Cell.f 0), ("min_size", Cell.f 300)] = true ∧
    passesFilter [("gm_reward_per_100", Cell.f 2), ("volatility_sum", Cell.nan),
      ("spread", Cell.f 0), ("min_size", Cell.f 100)] = false := by
  refine ⟨?_, by decide, by decide⟩
  intro r
  unfold passesFilter
  simp only [Bool.and_eq_true, qGE_iff, qLT_iff, qLE_iff]
  tauto

/-- C2.  `calculate_scores` assigns to every row, row-independently, a
`score` column holding `gm_reward_per_100 / (volatility_sum + 1) * 100`:
first conjunct, membership of the updated row in the output; second
conjunct, the value of the score cell for present operands and a finite
result; third conjunct, the concrete instance `2 / (3 + 1) * 100 = 50`. -/
theorem C2_score_formula :
    (∀ (df : List Row) (r : Row), r ∈ df →
        rset r "score" (scoreCell r) ∈ calculate_scores df) ∧
    (∀ (r : Row) (g v : ℚ),
        colQ r "gm_reward_per_100" = some g → colQ r "volatility_sum" = some v →
        v + 1 ≠ 0 → scoreCell r = Cell.f (g / (v + 1) * 100)) ∧
    scoreCell [("gm_reward_per_100", Cell.f 2), ("volatility_sum", Cell.f 3)] =
      Cell.f 50 := by
  have h2 : ∀ (r : Row) (g v : ℚ),
      colQ r "gm_reward_per_100" = some g → colQ r "volatility_sum" = some v →
      v + 1 ≠ 0 → scoreCell r = Cell.f (g / (v + 1) * 100) := by
    intro r g v hg hv hne
    unfold scoreCell
    rw [hg, hv]
    show (if v + 1 = 0 then Cell.nan else Cell.f (g / (v + 1) * 100)) = _
    rw [if_neg hne]
  refine ⟨fun df r hr => List.mem_map_of_mem _ hr, h2, ?_⟩
  rw [h2 _ 2 3 (by decide) (by decide) (by norm_num)]
  norm_num

/-- C2 witness: the score formula evaluated at reward `2`, volatility `3`. -/
theorem C2_score_formula_witness :
    scoreCell [("gm_reward_per_100", Cell.f 2), ("volatility_sum", Cell.f 3)] =
      Cell.f (2 / (3 + 1) * 100) ∧
    rset [] "score" (scoreCell []) ∈ calculate_scores [[]] := by
  constructor
  · exact C2_score_formula.2.1 _ 2 3 (by decide) (by decide) (by norm_num)
  · exact C2_score_formula.1 [[]] [] (by simp)

/-- C10.  The value coercion of the hyperparameter parser is total: every
cell is either stored as a float or stored unchanged (first conjunct — in
the source the `ValueError` of an ill-formed numeral is caught and the
original value kept, so no input raises).  The strings `"1.2.3"` and
`"12-3"` pass the digit test yet fail `float()`, and are kept verbatim;
ints and floats are always stored as floats. -/
theorem C10_coercion_total :
    (∀ v : Cell, (∃ q, coerceValue v = Cell.f q) ∨ coerceValue v = v) ∧
    coerceValue (Cell.s "1.2.3") = Cell.s "1.2.3" ∧
    coerceValue (Cell.s "12-3") = Cell.s "12-3" ∧
    (∀ n : Int, coerceValue (Cell.i n) = Cell.f (n : ℚ)) ∧
    (∀ q : ℚ, coerceValue (Cell.f q) = Cell.f q) := by
  refine ⟨?_, by decide, by decide, fun n => rfl, fun q => rfl⟩
  intro v
  cases v with
  | s str =>
    by_cases hd : digitTest str
    · cases hp : pyFloat str with
      | none =>
        refine Or.inr ?_
        simp only [coerceValue]
        rw [if_pos hd, hp]
      | some q =>
        refine Or.inl ⟨q, ?_⟩
        simp only [coerceValue]
        rw [if_pos hd, hp]
    · refine Or.inr ?_
      simp only [coerceValue]
      rw [if_neg hd]
  | i n => exact Or.inl ⟨(n : ℚ), rfl⟩
  | f q => exact Or.inl ⟨q, rfl⟩
  | nan => exact Or.inr rfl

/-- C5.  Stateful sectioning of the hyperparameter rows.  First conjunct: a
row whose `type` cell does not start a section, seen while no section is
current, is dropped.  Second conjunct: such a row seen under a current
section is inserted into that section (inheritance from the most recently
seen non-empty type).  Third conjunct: a section-starting row switches the
current section to its stripped type and is inserted there.  Then: the
empty string, a whitespace-only string and the NaN placeholder do not start
sections; and the two concrete runs of the claim evaluate as stated. -/
theorem C5_param_sectioning :
    (∀ (hp : HP) (r : PRow), typeStarts r.type = false →
        stepHP (hp, none) r = (hp, none)) ∧
    (∀ (hp : HP) (sec : String) (r : PRow), typeStarts r.type = false →
        stepHP (hp, some sec) r =
          (hpInsert hp sec r.param (coerceValue r.value), some sec)) ∧
    (∀ (acc : HP × Option String) (r : PRow), typeStarts r.type = true →
        stepHP acc r =
          (hpInsert acc.1 (pyStrip (pyStr r.type)) r.param (coerceValue r.value),
            some (pyStrip (pyStr r.type)))) ∧
    typeStarts (Cell.s "") = false ∧
    typeStarts (Cell.s "   ") = false ∧
    typeStarts Cell.nan = false ∧
    get_sheet_df_hyperparams
        [⟨Cell.s "A", Cell.s "x", Cell.s "1"⟩, ⟨Cell.s "", Cell.s "y", Cell.s "2"⟩,
          ⟨Cell.s "B", Cell.s "z", Cell.s "3"⟩] =
      [("A", [(Cell.s "x", Cell.f 1), (Cell.s "y", Cell.f 2)]),
        ("B", [(Cell.s "z", Cell.f 3)])] ∧
    get_sheet_df_hyperparams [⟨Cell.s "", Cell.s "x", Cell.s "1"⟩] = [] := by
  refine ⟨?_, ?_, ?_, by decide, by decide, by decide, by decide, by decide⟩
  · intro hp r h
    unfold stepHP
    rw [h]
    rfl
  · intro hp sec r h
    unfold stepHP
    rw [h]
    rfl
  · intro acc r h
    unfold stepHP
    rw [h]
    rfl

/-- C5 witness: a whitespace-only `type` row inherits the current section
`"A"`; its value is appended to that section. -/
theorem C5_param_sectioning_witness :
    stepHP ([("A", [(Cell.s "x", Cell.f 1)])], some "A")
        ⟨Cell.s "   ", Cell.s "y", Cell.s "2"⟩ =
      ([("A", [(Cell.s "x", Cell.f 1), (Cell.s "y", Cell.f 2)])], some "A") := by
  rw [C5_param_sectioning.2.1 _ "A" _ (by decide)]
  decide

/-! ### C9: the selection materializer -/

/-- A negative, non-integral `min_size` (the value -5/2, written as a
reduced rational so it evaluates by kernel reduction; `negMinSize_eq`
checks the value), used to separate truncation toward zero from floor. -/
def negMinSize : ℚ := ⟨-5, 2, by decide, by norm_num⟩

theorem negMinSize_eq : negMinSize = -(5 / 2) := by
  unfold negMinSize
  rw [Rat.mk'_eq_divInt, Rat.divInt_eq_div]
  norm_num

/-- On non-negative rationals, truncation toward zero agrees with floor. -/
theorem truncRat_nonneg_eq_floor (q : ℚ) (h : 0 ≤ q) : truncRat q = ⌊q⌋ := by
  rw [Rat.floor_def]
  have hnum : 0 ≤ q.num := Rat.num_nonneg.2 h
  obtain ⟨n, hn⟩ := Int.eq_ofNat_of_zero_le hnum
  rw [truncRat, hn]
  rw [if_neg (by omega), one_mul, Int.natAbs_ofNat]
  exact Int.natCast_div n q.den

/-- C9 refuted as stated: `astype(int)` truncates toward zero, not floor.
On a selected record with `min_size = -5/2` the code writes `"-2"`, while
the decimal string of the floor is `"-3"`. -/
theorem C9_counterexample :
    rget (prepareRow [("min_size", Cell.f negMinSize)]) "max_size" =
      Cell.s (toString (truncRat negMinSize)) ∧
    toString (truncRat negMinSize) = "-2" ∧
    toString (⌊negMinSize⌋) = "-3" := by
  refine ⟨by decide, by decide, ?_⟩
  have h3 : ⌊negMinSize⌋ = -3 := by
    rw [negMinSize_eq]
    rw [Int.floor_eq_iff]
    constructor <;> norm_num
  rw [h3]
  decide

/-- C9 amended.  The materializer is row-wise; for every record with a
present numeric `min_size`, `max_size` and `trade_size` are both the
decimal string of `min_size` truncated toward zero (which coincides with
the claimed floor exactly on non-negative values — last conjunct),
`param_type` is the constant `"mid"`, and `multiplier` the constant
`"1"`. -/
theorem C9_amended :
    (∀ df : List Row, prepare_selected_markets df = df.map prepareRow) ∧
    (∀ (r : Row) (q : ℚ), colQ r "min_size" = some q →
      rget (prepareRow r) "max_size" = Cell.s (toString (truncRat q)) ∧
      rget (prepareRow r) "trade_size" = Cell.s (toString (truncRat q)) ∧
      rget (prepareRow r) "param_type" = Cell.s MarketConfig.DEFAULT_PARAM_TYPE ∧
      rget (prepareRow r) "multiplier" = Cell.s MarketConfig.DEFAULT_MULTIPLIER) ∧
    (∀ q : ℚ, 0 ≤ q → truncRat q = ⌊q⌋) := by
  refine ⟨fun df => rfl, ?_, truncRat_nonneg_eq_floor⟩
  intro r q hq
  unfold prepareRow
  rw [hq]
  simp only [Option.getD_some]
  refine ⟨?_, ?_, ?_, ?_⟩
  · rw [rget_rset_ne _ _ (by decide), rget_rset_ne _ _ (by decide),
      rget_rset_ne _ _ (by decide), rget_rset_self]
  · rw [rget_rset_ne _ _ (by decide), rget_rset_ne _ _ (by decide), rget_rset_self]
  · rw [rget_rset_ne _ _ (by decide), rget_rset_self]
  · rw [rget_rset_self]

/-- C9 witness: a record with `min_size = 100` gets `max_size` `"100"`,
and on the non-negative value `2` truncation agrees with floor. -/
theorem C9_amended_witness :
    rget (prepareRow [("min_size", Cell.f 100)]) "max_size" = Cell.s "100" ∧
    truncRat 2 = ⌊(2 : ℚ)⌋ := by
  constructor
  · exact ((C9_amended.2.1 [("min_size", Cell.f 100)] 100 (by decide)).1).trans (by decide)
  · exact C9_amended.2.2 2 (by norm_num)

/-! ### C4: the schema merge -/

/-- Lookup in a keyed projection `cs.map (fun d => (d, f d)) ++ rest`: a key
occurring in `cs` reads its projected value. -/
theorem alookup_pairs_mem (f : String → Cell) (cs : List String)
    (rest : List (String × Cell)) (c : String) (h : c ∈ cs) :
    alookup (cs.map (fun d => (d, f d)) ++ rest) c = some (f c) := by
  induction cs with
  | nil => cases h
  | cons d cs ih =>
    simp only [List.map_cons, List.cons_append, alookup]
    by_cases hdc : d = c
    · subst hdc
      rw [if_pos rfl]
    · rw [if_neg hdc]
      exact ih ((List.mem_cons.1 h).resolve_left (fun hc => hdc hc.symm))

/-- A merged row reads every primary column verbatim from the primary row. -/
theorem rget_mergeRow_primary (pcols extra : List String) (p srow : Row)
    (c : String) (h : c ∈ pcols) :
    rget (mergeRow pcols extra p srow) c = rget p c := by
  unfold rget mergeRow
  rw [alookup_pairs_mem (fun d => rget p d) pcols _ c h]
  rfl

/-- C4.  The merge step of `get_sheet_df`.  First conjunct: the output
column set is the union of the two input column sets.  Second conjunct:
every output record arises from a primary record and a secondary record
with equal `question` cells (inner-join on the key, so the record's
question exists in both inputs), every primary column — in particular every
column present in both inputs — is taken verbatim from the primary record,
and the output's own `question` cell is the primary's whenever the primary
sheet carries that column. -/
theorem C4_merge_semantics :
    (∀ P S : DF, ∀ c : String,
      c ∈ (get_sheet_df_merge P S).cols ↔ (c ∈ P.cols ∨ c ∈ S.cols)) ∧
    (∀ P S : DF, ∀ r ∈ (get_sheet_df_merge P S).rows,
      ∃ p, p ∈ P.rows ∧ ∃ srow, srow ∈ S.rows ∧
        rget srow "question" = rget p "question" ∧
        (∀ c ∈ P.cols, rget r c = rget p c) ∧
        ("question" ∈ P.cols → rget r "question" = rget p "question")) := by
  constructor
  · intro P S c
    unfold get_sheet_df_merge
    simp only [List.mem_append, List.mem_filter, decide_eq_true_eq]
    constructor
    · rintro (h | ⟨h, _⟩)
      · exact Or.inl h
      · exact Or.inr h
    · rintro (h | h)
      · exact Or.inl h
      · by_cases hp : c ∈ P.cols
        · exact Or.inl hp
        · exact Or.inr ⟨h, by simpa using hp⟩
  · intro P S r hr
    unfold get_sheet_df_merge at hr
    simp only [List.mem_flatten, List.mem_map] at hr
    obtain ⟨l, ⟨p, hp, rfl⟩, hrl⟩ := hr
    obtain ⟨srow, hs, rfl⟩ := List.mem_map.1 hrl
    have hp' : p ∈ P.rows := (List.mem_filter.1 hp).1
    have hs1 := List.mem_filter.1 hs
    have hs' : srow ∈ S.rows := (List.mem_filter.1 hs1.1).1
    have hq : rget srow "question" = rget p "question" := of_decide_eq_true hs1.2
    refine ⟨p, hp', srow, hs', hq, ?_, ?_⟩
    · intro c hc
      exact rget_mergeRow_primary P.cols _ p srow c hc
    · intro hqc
      exact rget_mergeRow_primary P.cols _ p srow _ hqc

/-- C4 witness: a one-row primary sheet with columns `question, a` merged
with a one-row secondary sheet with columns `question, a, b`; the shared
column `a` keeps the primary value `"pa"`. -/
theorem C4_merge_semantics_witness :
    (("a" ∈ (get_sheet_df_merge
        ⟨["question", "a"], [[("question", Cell.s "q"), ("a", Cell.s "pa")]]⟩
        ⟨["question", "a", "b"],
          [[("question", Cell.s "q"), ("a", Cell.s "sa"), ("b", Cell.s "sb")]]⟩).cols) ↔
      ("a" ∈ ["question", "a"] ∨ "a" ∈ ["question", "a", "b"])) ∧
    (∃ p, p ∈ [[("question", Cell.s "q"), ("a", Cell.s "pa")]] ∧
      ∃ srow, srow ∈ [[("question", Cell.s "q"), ("a", Cell.s "sa"), ("b", Cell.s "sb")]] ∧
        rget srow "question" = rget p "question" ∧
        (∀ c ∈ ["question", "a"],
          rget (mergeRow ["question", "a"] ["b"]
            [("question", Cell.s "q"), ("a", Cell.s "pa")]
            [("question", Cell.s "q"), ("a", Cell.s "sa"), ("b", Cell.s "sb")]) c =
          rget p c) ∧
        ("question" ∈ ["question", "a"] →
          rget (mergeRow ["question", "a"] ["b"]
            [("question", Cell.s "q"), ("a", Cell.s "pa")]
            [("question", Cell.s "q"), ("a", Cell.s "sa"), ("b", Cell.s "sb")]) "question" =
          rget p "question")) := by
  constructor
  · exact C4_merge_semantics.1
      ⟨["question", "a"], [[("question", Cell.s "q"), ("a", Cell.s "pa")]]⟩
      ⟨["question", "a", "b"],
        [[("question", Cell.s "q"), ("a", Cell.s "sa"), ("b", Cell.s "sb")]]⟩ "a"
  · exact C4_merge_semantics.2
      ⟨["question", "a"], [[("question", Cell.s "q"), ("a", Cell.s "pa")]]⟩
      ⟨["question", "a", "b"],
        [[("question", Cell.s "q"), ("a", Cell.s "sa"), ("b", Cell.s "sb")]]⟩
      (mergeRow ["question", "a"] ["b"]
        [("question", Cell.s "q"), ("a", Cell.s "pa")]
        [("question", Cell.s "q"), ("a", Cell.s "sa"), ("b", Cell.s "sb")])
      (by decide)

/-! ### C6, C7, C8: the sync writer and the run's exit behavior -/

/-- C6.  A successful sync (no delete failure, no append failure) against a
destination that has a header row leaves exactly the untouched header
followed by one appended row per record, in submitted order; the appended
cells are the record's fields read in header-column order with absent
fields rendered as the empty string (`renderRow`), and no prior data row
survives. -/
theorem C6_sync_replaces_rows :
    ∀ (hdr : List String) (rest : List (List String)) (markets : List Row),
      mainSync false none (hdr :: rest) markets =
        (hdr :: markets.map (renderRow hdr), 0) := by
  intro hdr rest markets
  unfold mainSync clear_selected_markets update_selected_markets
  cases rest with
  | nil =>
    norm_num
  | cons a t =>
    have hlen : 1 < (hdr :: a :: t).length := by
      simp only [List.length_cons]
      omega
    rw [if_pos hlen]
    norm_num

/-- C7.  When no candidate record passes the filter, the run exits with
status 1 before touching the destination: the final sheet is the prior
sheet, whatever the failure oracles would have done to the delete and
append calls. -/
theorem C7_empty_selection_aborts :
    ∀ (vol : List Row) (d : Bool) (a : Option Nat) (sheet : List (List String)),
      (∀ r ∈ vol, passesFilter r = false) →
      mainRun vol d a sheet = (sheet, 1) := by
  intro vol d a sheet h
  unfold mainRun
  have hf : (calculate_scores vol).filter passesFilter = [] := by
    rw [List.filter_eq_nil_iff]
    intro r hr
    obtain ⟨r0, hr0, rfl⟩ := List.mem_map.1 hr
    simp [passesFilter_rset_score, h r0 hr0]
  unfold filter_markets
  rw [hf]
  rfl

/-- C7 witness: one candidate failing the reward threshold; the run exits 1
and the two prior destination rows survive. -/
theorem C7_empty_selection_aborts_witness :
    mainRun [[("gm_reward_per_100", Cell.f 0)]] true (some 0)
        [["question"], ["old"]] =
      ([["question"], ["old"]], 1) :=
  C7_empty_selection_aborts _ _ _ _ (by
    intro r hr
    rw [List.mem_singleton] at hr
    subst hr
    decide)

/-- C8 refuted as stated: a failed delete call is caught inside
`clear_selected_markets` and the run continues.  Here the destination holds
one stale row, the delete call fails, the single qualifying market is still
appended after the stale row, and the process exits 0 — not non-zero as the
claim requires for any sync failure. -/
theorem C8_counterexample :
    mainRun
        [[("question", Cell.s "q1"), ("gm_reward_per_100", Cell.f 2),
          ("volatility_sum", Cell.f 3), ("spread", Cell.f 0), ("min_size", Cell.f 100)]]
        true none [["question"], ["old"]] =
      ([["question"], ["old"], ["q1"]], 0) := by
  decide

/-- Head of the sheet left by the clear phase: the header row survives both
a successful delete and a caught delete failure. -/
theorem clear_keeps_header (d : Bool) (hdr : List String)
    (rest : List (List String)) :
    ((clear_selected_markets d (hdr :: rest)).1).head?.getD [] = hdr := by
  unfold clear_selected_markets
  cases rest with
  | nil => norm_num
  | cons a t =>
    have hlen : 1 < (hdr :: a :: t).length := by
      simp only [List.length_cons]
      omega
    rw [if_pos hlen]
    cases d <;> norm_num

/-- C8 amended.  Only the append phase decides the exit status: when the
k-th append call fails, the run exits 1 and the destination keeps exactly
what the writes produced so far — the sheet left by the clear phase plus
the first k rendered rows, with no rollback (first conjunct).  A failed
delete call, by contrast, is caught and logged inside the clear phase: with
all appends succeeding, the run exits 0 (second conjunct). -/
theorem C8_append_failure_fatal_delete_swallowed :
    (∀ (hdr : List String) (rest : List (List String)) (markets : List Row)
        (d : Bool) (k : Nat), k < markets.length →
      mainSync d (some k) (hdr :: rest) markets =
        ((clear_selected_markets d (hdr :: rest)).1 ++
          (markets.take k).map (renderRow hdr), 1)) ∧
    (∀ (sheet : List (List String)) (markets : List Row),
      (mainSync true none sheet markets).2 = 0) := by
  constructor
  · intro hdr rest markets d k hk
    dsimp only [mainSync, update_selected_markets]
    rw [clear_keeps_header d hdr rest]
    rw [if_pos hk]
    rfl
  · intro sheet markets
    rfl

/-- C8 amended witness: with two records and the second append failing, the
destination keeps the header and the first rendered row and the run exits
1; and a pure delete failure exits 0. -/
theorem C8_append_failure_fatal_delete_swallowed_witness :
    mainSync false (some 1) [["question"]]
        [[("question", Cell.s "q1")], [("question", Cell.s "q2")]] =
      ([["question"], ["q1"]], 1) ∧
    (mainSync true none [["question"], ["old"]] [[("question", Cell.s "q1")]]).2 = 0 := by
  constructor
  · rw [C8_append_failure_fatal_delete_swallowed.1 ["question"] []
      [[("question", Cell.s "q1")], [("question", Cell.s "q2")]] false 1 (by decide)]
    decide
  · exact C8_append_failure_fatal_delete_swallowed.2 [["question"], ["old"]]
      [[("question", Cell.s "q1")]]

end PolyMaker
